import Mathlib

/-!
Verification of flint's entity-resolution core against its specification.

The definitions in this file are a shallow embedding of the Python sources
`src/flint/interface.py`, `src/flint/entities/solars.py` and
`src/flint/entities/universe.py`.  Python strings are modelled as Lean
`String`, Python `None`/exception outcomes as `Option`/`Res`, Python floats
(reputation values) as `Rat`, and registry/`EntitySet` nickname lookup as
first-match association lookup on lists.
-/

namespace Flint

/-! ## Markup translator (`interface.py`)

`str.replace` in Python scans left to right replacing non-overlapping literal
occurrences; with an empty pattern it inserts the replacement at every
character boundary (including both ends).  Both behaviours are modelled
exactly.  `replaceCore` uses a fuel argument equal to the scanned string's
length purely so that the recursion is structural; the fuel is never
exhausted before the scan finishes. -/

/-- Does the list `s` start with the list `p`? -/
def startsWithL : List Char → List Char → Bool
  | _, [] => true
  | [], _ :: _ => false
  | c :: s, p :: ps => c == p && startsWithL s ps

/-- Python `s.replace('', rep)`: insert `rep` at every character boundary. -/
def interleave (rep : List Char) : List Char → List Char
  | [] => rep
  | c :: s => rep ++ c :: interleave rep s

/-- Python `s.replace(pat, rep)` for non-empty `pat`: left-to-right scan
replacing non-overlapping occurrences.  `fuel` is an upper bound on the
number of scan steps (the caller passes `s.length`). -/
def replaceCore (pat rep : List Char) : Nat → List Char → List Char
  | 0, s => s
  | _ + 1, [] => []
  | fuel + 1, c :: rest =>
    if startsWithL (c :: rest) pat then
      rep ++ replaceCore pat rep fuel ((c :: rest).drop pat.length)
    else
      c :: replaceCore pat rep fuel rest

/-- Python `s.replace(pat, rep)`. -/
def pyReplace (s pat rep : List Char) : List Char :=
  if pat.isEmpty then interleave rep s else replaceCore pat rep s.length s

/-- Python `str.replace` lifted to `String`. -/
def strReplace (s pat rep : String) : String :=
  String.mk (pyReplace s.data pat.data rep.data)

/-- The `RDL_TO_HTML` lookup table of `interface.py`, in declaration order
(Python dicts preserve insertion order; the 37 keys are pairwise distinct). -/
def RDL_TO_HTML : List (String × String) :=
  [("<TRA data=\"1\" mask=\"1\" def=\"-2\"/>", "<b>"),
   ("<TRA bold=\"true\"/>", "<b>"),
   ("<TRA data=\"0\" mask=\"1\" def=\"-1\"/>", "</b>"),
   ("<TRA data=\"0x00000001\" mask=\"-1\" def=\"-2\"/>", "<b>"),
   ("<TRA data=\"0x00000000\" mask=\"-1\" def=\"-1\"/>", "</b>"),
   ("<TRA bold=\"default\"/>", "</b>"),
   ("<TRA data=\"2\" mask=\"3\" def=\"-3\"/>", "<i>"),
   ("<TRA data=\"0\" mask=\"3\" def=\"-1\"/>", "</i>"),
   ("<TRA data=\"98\" mask=\"-29\" def=\"-3\"/>", "<i>"),
   ("<TRA data=\"96\" mask=\"-29\" def=\"-1\"/>", "</i>"),
   ("<TRA data=\"2\" mask=\"2\" def=\"-3\"/>", "<i>"),
   ("<TRA data=\"0\" mask=\"2\" def=\"-1\"/>", "</i>"),
   ("<TRA data=\"5\" mask=\"5\" def=\"-6\"/>", "<b><u>"),
   ("<TRA data=\"0\" mask=\"5\" def=\"-1\"/>", "</b></u>"),
   ("<TRA data=\"5\" mask=\"7\" def=\"-6\"/>", "<b><u>"),
   ("<TRA data=\"0\" mask=\"7\" def=\"-1\"/>", "</b></u>"),
   ("<TRA color=\"default\" bold=\"default\"/>", "</font></b>"),
   ("<TRA data=\"65280\" mask=\"-32\" def=\"31\"/>", "<font color=\"red\">"),
   ("<TRA color=\"#ff0000\" bold=\"true\"/>", "<font color=\"red\"><b>"),
   ("<TRA data=\"96\" mask=\"-32\" def=\"-1\"/>", "</font>"),
   ("<TRA color=\"default\"/>", "</font>"),
   ("<TRA data=\"65281\" mask=\"-31\" def=\"30\"/>", "<b><font color=\"red\">"),
   ("<TRA data=\"96\" mask=\"-31\" def=\"-1\"/>", "</b></font>"),
   ("<TRA data=\"-16777216\" mask=\"-32\" def=\"31\"/>", "<font color=\"blue\">"),
   ("<TRA color=\"white\" bold=\"default\"/>", "</b><font color=\"white>"),
   ("<PARA/>", "<p>"),
   ("</PARA>", "</p>"),
   ("<JUST loc=\"left\"/>", "<p align=\"left\">"),
   ("<JUST loc=\"center\"/>", "<p align=\"center\">"),
   ("\xa0", "&nbsp;"),
   ("<RDL>", ""),
   ("</RDL>", ""),
   ("<TEXT>", ""),
   ("</TEXT>", ""),
   ("<PUSH/>", ""),
   ("<POP/>", ""),
   ("<?xml version=\"1.0\" encoding=\"UTF-16\"?>", "")]

/-- Forward translation `rdl_to_html`: replace every RDL tag by its HTML counterpart, in table
order. -/
def rdlToHtml (rdl : String) : String :=
  RDL_TO_HTML.foldl (fun result pr => strReplace result pr.1 pr.2) rdl

/-- Reverse translation `html_to_rdl`: the same table applied with source and target swapped. -/
def htmlToRdl (html : String) : String :=
  RDL_TO_HTML.foldl (fun result pr => strReplace result pr.2 pr.1) html

/-- Does `pat` occur as a contiguous substring of `s`? -/
def containsSub (s pat : List Char) : Bool :=
  match s with
  | [] => pat.isEmpty
  | _ :: rest => startsWithL s pat || containsSub rest pat

theorem containsSub_ne_nil {s pat : List Char} (h : containsSub s pat = false) :
    pat ≠ [] := by
  intro hp
  subst hp
  cases s <;> simp [containsSub, startsWithL] at h

theorem replaceCore_eq_self (pat rep : List Char) :
    ∀ (fuel : Nat) (s : List Char), containsSub s pat = false →
      replaceCore pat rep fuel s = s
  | 0, _, _ => rfl
  | _ + 1, [], _ => rfl
  | fuel + 1, c :: rest, h => by
    have h' : startsWithL (c :: rest) pat = false ∧ containsSub rest pat = false := by
      simpa [containsSub] using h
    simp only [replaceCore, h'.1, Bool.false_eq_true, if_false]
    rw [replaceCore_eq_self pat rep fuel rest h'.2]

theorem pyReplace_eq_self {s pat rep : List Char} (h : containsSub s pat = false) :
    pyReplace s pat rep = s := by
  obtain ⟨p, ps, rfl⟩ := List.exists_cons_of_ne_nil (containsSub_ne_nil h)
  rw [pyReplace]
  exact replaceCore_eq_self _ rep s.length s h

theorem foldl_strReplace_eq_self :
    ∀ (tbl : List (String × String)) (s : String),
      (∀ pr ∈ tbl, containsSub s.data pr.1.data = false) →
      tbl.foldl (fun result pr => strReplace result pr.1 pr.2) s = s
  | [], _, _ => rfl
  | pr :: rest, s, h => by
    have h1 : strReplace s pr.1 pr.2 = s := by
      rw [strReplace, pyReplace_eq_self (h pr (List.mem_cons_self pr rest))]
    rw [List.foldl_cons, h1]
    exact foldl_strReplace_eq_self rest s fun q hq => h q (List.mem_cons_of_mem _ hq)

theorem interleave_length (rep : List Char) :
    ∀ s : List Char, (interleave rep s).length = (s.length + 1) * rep.length + s.length
  | [] => by simp [interleave]
  | c :: rest => by
    simp [interleave, interleave_length rep rest]
    ring

theorem strReplace_empty_pat_length (s rep : String) :
    (strReplace s "" rep).length = (s.length + 1) * rep.length + s.length := by
  cases s
  cases rep
  simp [strReplace, pyReplace, interleave_length, String.length]

/-- C8: an input containing no occurrence of any RDL-side pattern of the
translation table is a fixed point of the forward translator. -/
theorem c8_rdlToHtml_fixed_point (s : String)
    (h : ∀ pr ∈ RDL_TO_HTML, containsSub s.data pr.1.data = false) :
    rdlToHtml s = s :=
  foldl_strReplace_eq_self RDL_TO_HTML s h

/-- Witness for C8 at the concrete HTML-only input `"<b>hi</b>"`. -/
theorem c8_rdlToHtml_fixed_point_witness :
    (∀ pr ∈ RDL_TO_HTML, containsSub "<b>hi</b>".data pr.1.data = false) ∧
      rdlToHtml "<b>hi</b>" = "<b>hi</b>" :=
  ⟨by decide, c8_rdlToHtml_fixed_point _ (by decide)⟩

theorem htmlToRdl_empty_length : (htmlToRdl "").length = 5268479 := by
  have h30 : (RDL_TO_HTML.take 30).foldl
      (fun result pr => strReplace result pr.2 pr.1) "" = "" := by decide
  have hdrop : RDL_TO_HTML.drop 30 =
      [("<RDL>", ""), ("</RDL>", ""), ("<TEXT>", ""), ("</TEXT>", ""),
       ("<PUSH/>", ""), ("<POP/>", ""),
       ("<?xml version=\"1.0\" encoding=\"UTF-16\"?>", "")] := by decide
  rw [htmlToRdl, ← List.take_append_drop 30 RDL_TO_HTML, List.foldl_append, h30, hdrop]
  simp only [List.foldl]
  simp only [strReplace_empty_pat_length]
  norm_num [String.length]

/-- C3 (demonstration of the defect): the empty string is an output of the
forward translator, yet the reverse translator maps it to a string of
5268479 characters, because the table rows whose HTML side is empty make
`html_to_rdl` call `replace('', tag)`, which inserts `tag` at every
character boundary.  The forward-reverse-forward round trip on the HTML
side therefore cannot reproduce the empty string. -/
theorem c3_reverse_explodes_on_forward_output :
    rdlToHtml "" = "" ∧ (htmlToRdl (rdlToHtml "")).length = 5268479 := by
  have h : rdlToHtml "" = "" := by decide
  exact ⟨h, by rw [h]; exact htmlToRdl_empty_length⟩

/-! ## Loadout cargo (`solars.py`, `Loadout.loot`) -/

structure EquipmentE where
  nickname : String
deriving DecidableEq

/-- One entry of a `cargo` list: a bare item nickname, or a
`(nickname, amount)` tuple. -/
inductive CargoItem where
  | bare (nickname : String)
  | pair (nickname : String) (amount : Int)
deriving DecidableEq

/-- The `cargo` attribute of a `Loadout`: Python `None`, a single
descriptor, or a list of descriptors. -/
inductive CargoVal where
  | none_
  | single (it : CargoItem)
  | list_ (its : List CargoItem)
deriving DecidableEq

/-- Python truthiness of a single cargo descriptor: the empty string is
falsy, a (non-empty) tuple is truthy. -/
def itemTruthy : CargoItem → Bool
  | .bare s => s != ""
  | .pair _ _ => true

/-- Lookup `routines.get_equipment()[nick]`: first-match nickname lookup; `none`
models the `KeyError` raised on a miss. -/
def getEquipment : List EquipmentE → String → Option EquipmentE
  | [], _ => none
  | e :: rest, nick => if e.nickname = nick then some e else getEquipment rest nick

/-- The value of the `cargo` attribute after `Loadout.loot` runs
`if type(self.cargo) is not list and self.cargo: self.cargo = [self.cargo]`. -/
def lootCargoAfter : CargoVal → CargoVal
  | .single it => if itemTruthy it then .list_ [it] else .single it
  | c => c

/-- The list of descriptors the `for equip in self.cargo` loop iterates
(after the in-place normalisation; `None`, a falsy single value or an empty
list all skip the loop). -/
def cargoItems : CargoVal → List CargoItem
  | .none_ => []
  | .single it => if itemTruthy it then [it] else []
  | .list_ its => its

/-- The `result` list built by the loop: each descriptor is resolved via
`get_equipment()[...]` (a bare nickname implies amount 1); a lookup miss
raises, modelled by `none`. -/
def resolveCargo (reg : List EquipmentE) : List CargoItem → Option (List (EquipmentE × Int))
  | [] => some []
  | it :: rest =>
    let nq : String × Int :=
      match it with
      | .bare s => (s, 1)
      | .pair s q => (s, q)
    match getEquipment reg nq.1 with
    | none => none
    | some e => (resolveCargo reg rest).map fun l => (e, nq.2) :: l

/-- Keys of `dict(result)` in insertion (first-seen) order. -/
def firstSeenKeys (l : List (EquipmentE × Int)) : List EquipmentE :=
  l.foldl (fun acc p => if p.1 ∈ acc then acc else acc ++ [p.1]) []

/-- Value `dict(result)[k]`: the amount of the last pair with key `k`. -/
def lastValue (l : List (EquipmentE × Int)) (k : EquipmentE) : Int :=
  l.foldl (fun acc p => if p.1 = k then p.2 else acc) 0

/-- Python `[i[0] for i in result].count(k)`. -/
def countKey (l : List (EquipmentE × Int)) (k : EquipmentE) : Nat :=
  l.countP fun p => decide (p.1 = k)

/-- Query `Loadout.loot()`: `default = defaultdict(int, dict(result))` keeps the
last amount per key in first-seen key order; the following loop overwrites
the value of any key occurring more than once with its occurrence count;
the result is `default` as a list of pairs. -/
def loot (reg : List EquipmentE) (cargo : CargoVal) : Option (List (EquipmentE × Int)) :=
  (resolveCargo reg (cargoItems cargo)).map fun result =>
    (firstSeenKeys result).map fun k =>
      let c := countKey result k
      (k, if 1 < c then (c : Int) else lastValue result k)

def ammo01 : EquipmentE := ⟨"ammo_01"⟩

def shield01 : EquipmentE := ⟨"shield_01"⟩

/-- C1 (defect demonstration): for cargo
`[("ammo_01", 3), ("ammo_01", 2), "shield_01"]` the code produces the pair
`(ammo_01, 2)` — the occurrence count of the duplicated nickname — rather
than the claimed summed quantity `(ammo_01, 5)`; first-seen order is kept. -/
theorem c1_loot_counts_instead_of_summing :
    loot [ammo01, shield01]
        (.list_ [.pair "ammo_01" 3, .pair "ammo_01" 2, .bare "shield_01"]) =
      some [(ammo01, 2), (shield01, 1)] ∧
    (some [(ammo01, 2), (shield01, 1)] : Option (List (EquipmentE × Int))) ≠
      some [(ammo01, 5), (shield01, 1)] := by
  exact ⟨by decide, by decide⟩

/-- C4 counterexample: `Loadout.loot()` reassigns the `cargo` attribute of
the entity (wrapping a single descriptor into a list), which is an entity
attribute mutation, not memoization-cache population. -/
theorem c4_loot_mutates_cargo_attribute :
    lootCargoAfter (.single (.pair "ammo_01" 3)) ≠ .single (.pair "ammo_01" 3) := by
  decide

/-- C4 (amended): the only attribute mutation performed by `Loadout.loot()`
is the in-place normalisation of a single truthy cargo descriptor into a
singleton list; this mutation is idempotent and does not change the result
of `loot`. -/
theorem c4_amended_only_idempotent_normalisation (c : CargoVal) :
    lootCargoAfter (lootCargoAfter c) = lootCargoAfter c ∧
    ∀ reg : List EquipmentE, loot reg (lootCargoAfter c) = loot reg c := by
  have hitems : cargoItems (lootCargoAfter c) = cargoItems c := by
    cases c with
    | none_ => rfl
    | single it =>
      by_cases h : itemTruthy it = true <;>
        simp [lootCargoAfter, cargoItems, h]
    | list_ its => rfl
  constructor
  · cases c with
    | none_ => rfl
    | single it =>
      by_cases h : itemTruthy it = true <;>
        simp [lootCargoAfter, h]
    | list_ its => rfl
  · intro reg
    rw [loot, loot, hitems]

/-- Witness for C4 (amended) at a concrete single-descriptor cargo. -/
theorem c4_amended_only_idempotent_normalisation_witness :
    lootCargoAfter (lootCargoAfter (.single (.pair "ammo_01" 3))) =
      lootCargoAfter (.single (.pair "ammo_01" 3)) ∧
    loot [ammo01] (lootCargoAfter (.single (.pair "ammo_01" 3))) =
      loot [ammo01] (.single (.pair "ammo_01" 3)) :=
  ⟨(c4_amended_only_idempotent_normalisation (.single (.pair "ammo_01" 3))).1,
   (c4_amended_only_idempotent_normalisation (.single (.pair "ammo_01" 3))).2 [ammo01]⟩

/-! ## Trade-lane chains (`universe.py`, `System.lanes`) -/

structure TradeLaneRingE where
  nickname : String
  prev_ring : Option String
  next_ring : Option String
deriving DecidableEq

/-- Lookup `rings.get(nick)`: first-match nickname lookup returning `None` on a
miss. -/
def ringsGet : List TradeLaneRingE → String → Option TradeLaneRingE
  | [], _ => none
  | r :: rest, nick => if r.nickname = nick then some r else ringsGet rest nick

/-- The body of the `while current_ring:` loop of `System.lanes`: follow
`next_ring` nicknames, appending each resolved ring, stopping when
`next_ring` is falsy (`None` or the empty string) or does not resolve.  The
unbounded Python loop is modelled with a fuel argument; in the acyclic
configurations at issue the loop appends at most one ring per ring of the
system, so `lanesOf` passes the number of rings as fuel. -/
def followNext (rings : List TradeLaneRingE) : Nat → TradeLaneRingE → List TradeLaneRingE
  | 0, _ => []
  | fuel + 1, cur =>
    match cur.next_ring with
    | none => []
    | some nick =>
      if nick = "" then []
      else
        match ringsGet rings nick with
        | none => []
        | some nxt => nxt :: followNext rings fuel nxt

/-- Query `System.lanes()` on the system's ring set: heads are the rings whose
`prev_ring` is `None`, in contents order; each head is followed by the
rings its `next_ring` chain reaches. -/
def lanesOf (rings : List TradeLaneRingE) : List (List TradeLaneRingE) :=
  (rings.filter fun r => r.prev_ring.isNone).map fun head =>
    head :: followNext rings rings.length head

theorem followNext_succ (rings : List TradeLaneRingE) (fuel : Nat)
    (cur nxt : TradeLaneRingE) (nick : String) (hn : cur.next_ring = some nick)
    (hne : nick ≠ "") (hget : ringsGet rings nick = some nxt) :
    followNext rings (fuel + 1) cur = nxt :: followNext rings fuel nxt := by
  simp [followNext, hn, hne, hget]

theorem followNext_stop (rings : List TradeLaneRingE) (fuel : Nat)
    (cur : TradeLaneRingE) (hn : cur.next_ring = none) :
    followNext rings (fuel + 1) cur = [] := by
  simp [followNext, hn]

theorem followNext_miss (rings : List TradeLaneRingE) (fuel : Nat)
    (cur : TradeLaneRingE) (nick : String) (hn : cur.next_ring = some nick)
    (hne : nick ≠ "") (hget : ringsGet rings nick = none) :
    followNext rings (fuel + 1) cur = [] := by
  simp [followNext, hn, hne, hget]

/-! ## Universe entities (`universe.py`) -/

/-- The `goto` field of a `Jump`: a single tuple of strings, or a list of
tuples when the source record repeats the field. -/
inductive GotoField where
  | tup (t : List String)
  | lst (ts : List (List String))
deriving DecidableEq

structure JumpE where
  nickname : String
  goto : GotoField
deriving DecidableEq

structure BaseSolarE where
  nickname : String
  reputation : String
  base : String
deriving DecidableEq

/-- A `System` with its contents already classified by concrete subtype
(`contents().of_type(...)` preserves declaration order per kind). -/
structure SystemE where
  nickname : String
  jumps : List JumpE
  rings : List TradeLaneRingE
  baseSolars : List BaseSolarE
deriving DecidableEq

structure FactionE where
  nickname : String
  rep : List (Rat × String)
deriving DecidableEq

structure BaseE where
  nickname : String
  system : String
  /-- Modelled from the spec: `missions.get_mbases().get(nickname)` (external mission-data boundary,
  §6 of the spec): `some lf` when a mission-base entry exists, carrying its
  `local_faction` nickname. -/
  mbaseLocalFaction : Option String
deriving DecidableEq

/-- The immutable registry: per-kind nickname-indexed collections. -/
structure Registry where
  systems : List SystemE
  factions : List FactionE
  bases : List BaseE
deriving DecidableEq

def getSystemE : List SystemE → String → Option SystemE
  | [], _ => none
  | s :: rest, nick => if s.nickname = nick then some s else getSystemE rest nick

def getFactionE : List FactionE → String → Option FactionE
  | [], _ => none
  | f :: rest, nick => if f.nickname = nick then some f else getFactionE rest nick

/-- Query `System.lanes()`. -/
def SystemE.lanes (s : SystemE) : List (List TradeLaneRingE) :=
  lanesOf s.rings

/-- C5: a system whose three rings are linked `R1 → R2 → R3` (with `R1`
the only head) yields exactly one chain, `[R1, R2, R3]`. -/
theorem c5_lanes_three_ring_chain (sys : SystemE) (r1 r2 r3 : TradeLaneRingE)
    (hr : sys.rings = [r1, r2, r3])
    (h1p : r1.prev_ring = none) (h1n : r1.next_ring = some r2.nickname)
    (h2p : r2.prev_ring = some r1.nickname) (h2n : r2.next_ring = some r3.nickname)
    (h3p : r3.prev_ring = some r2.nickname) (h3n : r3.next_ring = none)
    (h2ne : r2.nickname ≠ "") (h3ne : r3.nickname ≠ "")
    (h12 : r1.nickname ≠ r2.nickname) (h13 : r1.nickname ≠ r3.nickname)
    (h23 : r2.nickname ≠ r3.nickname) :
    sys.lanes = [[r1, r2, r3]] := by
  have hget2 : ringsGet [r1, r2, r3] r2.nickname = some r2 := by
    simp [ringsGet, h12]
  have hget3 : ringsGet [r1, r2, r3] r3.nickname = some r3 := by
    simp [ringsGet, h13, h23]
  have hf : ([r1, r2, r3].filter fun r => r.prev_ring.isNone) = [r1] := by
    simp [List.filter, h1p, h2p, h3p]
  rw [SystemE.lanes, hr, lanesOf, hf]
  simp only [List.map, List.length_cons, List.length_nil]
  rw [show (0 + 1 + 1 + 1 : Nat) = 2 + 1 from rfl,
    followNext_succ [r1, r2, r3] 2 r1 r2 r2.nickname h1n h2ne hget2,
    show (2 : Nat) = 1 + 1 from rfl,
    followNext_succ [r1, r2, r3] 1 r2 r3 r3.nickname h2n h3ne hget3,
    show (1 : Nat) = 0 + 1 from rfl,
    followNext_stop [r1, r2, r3] 0 r3 h3n]

/-- Witness for C5 at a concrete three-ring system. -/
theorem c5_lanes_three_ring_chain_witness :
    SystemE.lanes ⟨"sys", [],
        [⟨"ring1", none, some "ring2"⟩, ⟨"ring2", some "ring1", some "ring3"⟩,
         ⟨"ring3", some "ring2", none⟩], []⟩ =
      [[⟨"ring1", none, some "ring2"⟩, ⟨"ring2", some "ring1", some "ring3"⟩,
        ⟨"ring3", some "ring2", none⟩]] :=
  c5_lanes_three_ring_chain _ _ _ _ rfl rfl rfl rfl rfl rfl rfl (by decide)
    (by decide) (by decide) (by decide) (by decide)

/-- C6: a `next_ring` nickname that does not resolve within the system's
ring set ends the chain right there, with no error: the loop simply stops
(first conjunct, for any ring set), and in the two-ring instance with
`R2.next_ring` dangling the single chain is `[R1, R2]` (second conjunct). -/
theorem c6_lanes_truncate_on_dangling_next :
    (∀ (rings : List TradeLaneRingE) (fuel : Nat) (r : TradeLaneRingE) (nick : String),
      r.next_ring = some nick → nick ≠ "" → ringsGet rings nick = none →
      followNext rings (fuel + 1) r = []) ∧
    (∀ (sys : SystemE) (r1 r2 : TradeLaneRingE) (bad : String),
      sys.rings = [r1, r2] →
      r1.prev_ring = none → r1.next_ring = some r2.nickname →
      r2.prev_ring = some r1.nickname → r2.next_ring = some bad →
      r2.nickname ≠ "" → bad ≠ "" → r1.nickname ≠ r2.nickname →
      r1.nickname ≠ bad → r2.nickname ≠ bad →
      sys.lanes = [[r1, r2]]) := by
  constructor
  · exact fun rings fuel r nick hn hne hget => followNext_miss rings fuel r nick hn hne hget
  · intro sys r1 r2 bad hr h1p h1n h2p h2n h2ne hbne h12 h1b h2b
    have hget2 : ringsGet [r1, r2] r2.nickname = some r2 := by
      simp [ringsGet, h12]
    have hmiss : ringsGet [r1, r2] bad = none := by
      simp [ringsGet, h1b, h2b]
    have hf : ([r1, r2].filter fun r => r.prev_ring.isNone) = [r1] := by
      simp [List.filter, h1p, h2p]
    rw [SystemE.lanes, hr, lanesOf, hf]
    simp only [List.map, List.length_cons, List.length_nil]
    rw [show (0 + 1 + 1 : Nat) = 1 + 1 from rfl,
      followNext_succ [r1, r2] 1 r1 r2 r2.nickname h1n h2ne hget2,
      show (1 : Nat) = 0 + 1 from rfl,
      followNext_miss [r1, r2] 0 r2 bad h2n hbne hmiss]

/-- Witness for C6 at a concrete two-ring system with a dangling
`next_ring`, also exercising the loop-stop conjunct directly. -/
theorem c6_lanes_truncate_on_dangling_next_witness :
    SystemE.lanes ⟨"sys", [],
        [⟨"ring1", none, some "ring2"⟩, ⟨"ring2", some "ring1", some "ghost"⟩], []⟩ =
      [[⟨"ring1", none, some "ring2"⟩, ⟨"ring2", some "ring1", some "ghost"⟩]] ∧
    followNext [⟨"ring1", none, some "ring2"⟩, ⟨"ring2", some "ring1", some "ghost"⟩]
        5 ⟨"ring2", some "ring1", some "ghost"⟩ = [] :=
  ⟨c6_lanes_truncate_on_dangling_next.2 _ _ _ "ghost" rfl rfl rfl rfl rfl
      (by decide) (by decide) (by decide) (by decide) (by decide),
   c6_lanes_truncate_on_dangling_next.1 _ 4 _ "ghost" rfl (by decide) (by decide)⟩

/-! ## System connections (`System.connections`, `Jump.destination_system`) -/

/-- The destination nickname extracted by `Jump.destination_system`:
`self.goto[-1][0] if isinstance(self.goto, list) else self.goto[0]`
(`none` models the `IndexError` on an empty tuple or list). -/
def JumpE.destNickname (j : JumpE) : Option String :=
  match j.goto with
  | .lst ts => ts.getLast?.bind List.head?
  | .tup t => t.head?

/-- Query `Jump.destination_system()`: `routines.get_systems()[destination]`;
`none` models the uncaught lookup failure. -/
def destinationSystem (reg : Registry) (j : JumpE) : Option SystemE :=
  j.destNickname.bind (getSystemE reg.systems)

def connAux (reg : Registry) : List JumpE → Option (List (JumpE × SystemE))
  | [] => some []
  | j :: js =>
    match destinationSystem reg j with
    | none => none
    | some d => (connAux reg js).map fun rest => (j, d) :: rest

/-- Query `System.connections()`: the dict comprehension
`{c: c.destination_system() for c in self.contents().of_type(Jump)}`; a
failing `destination_system` aborts the whole comprehension (`none`). -/
def SystemE.connections (reg : Registry) (s : SystemE) : Option (List (JumpE × SystemE)) :=
  connAux reg s.jumps

theorem connAux_some (reg : Registry) :
    ∀ (js : List JumpE) (l : List (JumpE × SystemE)), connAux reg js = some l →
      l.map Prod.fst = js ∧ ∀ p ∈ l, destinationSystem reg p.1 = some p.2
  | [], l, h => by
    simp only [connAux, Option.some_inj] at h
    subst h
    exact ⟨rfl, by simp⟩
  | j :: js, l, h => by
    simp only [connAux] at h
    match hd : destinationSystem reg j with
    | none => rw [hd] at h; exact absurd h (by simp)
    | some d =>
      rw [hd] at h
      obtain ⟨rest, hrest, rfl⟩ := Option.map_eq_some'.mp h
      obtain ⟨ih1, ih2⟩ := connAux_some reg js rest hrest
      refine ⟨by simp [ih1], ?_⟩
      intro p hp
      rcases List.mem_cons.mp hp with hp | hp
      · subst hp; exact hd
      · exact ih2 p hp

theorem connAux_none (reg : Registry) :
    ∀ (js : List JumpE) (j : JumpE), j ∈ js → destinationSystem reg j = none →
      connAux reg js = none
  | [], _, hmem, _ => absurd hmem (by simp)
  | j0 :: js, j, hmem, hd => by
    rcases List.mem_cons.mp hmem with rfl | hmem
    · simp [connAux, hd]
    · simp only [connAux]
      match hd0 : destinationSystem reg j0 with
      | none => rfl
      | some d => rw [connAux_none reg js j hmem hd]; rfl

/-- C2 (amended): when every contained Jump's destination resolves,
`connections()` maps each Jump, in order, to its resolved destination
System; when any Jump's destination does not resolve, the lookup failure
propagates out of `connections()` instead of the Jump being omitted. -/
theorem c2_connections_resolve_or_propagate :
    (∀ (reg : Registry) (s : SystemE) (l : List (JumpE × SystemE)),
      SystemE.connections reg s = some l →
      l.map Prod.fst = s.jumps ∧ ∀ p ∈ l, destinationSystem reg p.1 = some p.2) ∧
    (∀ (reg : Registry) (s : SystemE) (j : JumpE),
      j ∈ s.jumps → destinationSystem reg j = none →
      SystemE.connections reg s = none) :=
  ⟨fun reg s l h => connAux_some reg s.jumps l h,
   fun reg s j hmem hd => connAux_none reg s.jumps j hmem hd⟩

def sysAlpha : SystemE := ⟨"alpha", [], [], []⟩

def jumpToAlpha : JumpE := ⟨"jump1", .tup ["alpha", "jumpgate", ""]⟩

def jumpToNowhere : JumpE := ⟨"jump2", .tup ["nowhere", "jumpgate", ""]⟩

def sysBeta : SystemE := ⟨"beta", [jumpToAlpha, jumpToNowhere], [], []⟩

def regJumps : Registry := ⟨[sysAlpha, sysBeta], [], []⟩

/-- C2 counterexample: in a registry where `sysBeta` contains one Jump to
the known system `alpha` and one Jump to the unknown nickname `nowhere`,
`connections()` fails (raises) instead of returning the one-entry mapping
with the unresolvable Jump omitted. -/
theorem c2_counterexample_failure_not_omission :
    SystemE.connections regJumps sysBeta = none ∧
    (none : Option (List (JumpE × SystemE))) ≠ some [(jumpToAlpha, sysAlpha)] := by
  exact ⟨by decide, by decide⟩

def sysGammaTwo : SystemE := ⟨"gamma2", [], [], []⟩

def jumpToGammaTwo : JumpE := ⟨"jumpg", .tup ["gamma2", "jumphole", ""]⟩

def sysGamma : SystemE := ⟨"gamma", [jumpToGammaTwo], [], []⟩

def regGamma : Registry := ⟨[sysGamma, sysGammaTwo], [], []⟩

/-- Witness for C2 (amended), exercising both the fully-resolved and the
failure-propagating conjuncts at concrete registries. -/
theorem c2_connections_resolve_or_propagate_witness :
    ([(jumpToGammaTwo, sysGammaTwo)].map Prod.fst = sysGamma.jumps ∧
      ∀ p ∈ [(jumpToGammaTwo, sysGammaTwo)],
        destinationSystem regGamma p.1 = some p.2) ∧
    SystemE.connections regJumps sysBeta = none :=
  ⟨c2_connections_resolve_or_propagate.1 regGamma sysGamma _ rfl,
   c2_connections_resolve_or_propagate.2 regJumps sysBeta jumpToNowhere
     (by decide) rfl⟩

/-! ## Bases, factions, docking (`Base.solar`, `Base.owner`,
`Faction.bases`, `Faction.rep_sheet`, `Faction.can_dock_at`) -/

/-- Outcome of a query that can end in an uncaught exception. -/
inductive Res (α : Type) where
  | raised
  | ok (a : α)
deriving DecidableEq

/-- Modelled from the spec: `EntitySet.unique(base=nickname)` returns the single matching entity, or is
absent when zero or several match (modelled from the spec §3/§4.1;
`EntitySet` itself lies outside the given sources). -/
def uniqueBaseSolar (solars : List BaseSolarE) (nick : String) : Option BaseSolarE :=
  match solars.filter fun s => s.base == nick with
  | [s] => some s
  | _ => none

/-- Query `Base.solar()`: the outer `none` models the `KeyError` raised when the
base's `system` nickname is unknown to `get_systems()`; `some none` is a
virtual base (no physical solar). -/
def BaseE.solar (reg : Registry) (b : BaseE) : Option (Option BaseSolarE) :=
  (getSystemE reg.systems b.system).map fun sys =>
    uniqueBaseSolar sys.baseSolars b.nickname

/-- Query `Base.has_solar()`. -/
def BaseE.hasSolar (reg : Registry) (b : BaseE) : Option Bool :=
  (b.solar reg).map Option.isSome

/-- Query `Base.owner()`: the solar's owning faction when a solar exists (a
faction-lookup miss raises), else the mission-base `local_faction` when a
mission-base entry exists (ditto), else `None`. -/
def BaseE.owner (reg : Registry) (b : BaseE) : Res (Option FactionE) :=
  match b.solar reg with
  | none => .raised
  | some (some sol) =>
    match getFactionE reg.factions sol.reputation with
    | none => .raised
    | some f => .ok (some f)
  | some none =>
    match b.mbaseLocalFaction with
    | none => .ok none
    | some lf =>
      match getFactionE reg.factions lf with
      | none => .raised
      | some f => .ok (some f)

/-- Constant `Faction.NODOCK_REP = -0.65`, written as the reduced rational
`-13/20`. -/
def Faction.NODOCK_REP : Rat := ⟨-13, 20, by decide, by decide⟩

/-- Lookup `Faction.rep_sheet()[other]`: the sheet maps each resolved faction of
the raw `rep` vector to the last rep value listed for it, silently dropping
unknown nicknames; `none` models the `KeyError` when `other` has no entry. -/
def repSheetLookup (reg : Registry) (f : FactionE) (other : FactionE) : Option Rat :=
  f.rep.foldl
    (fun acc p =>
      match getFactionE reg.factions p.2 with
      | none => acc
      | some g => if g = other then some p.1 else acc)
    none

/-- Query `Faction.can_dock_at(base)`:
`self.rep_sheet()[base.owner()] > self.NODOCK_REP`; an owner of `None` or
an owner missing from the sheet raises (`KeyError`), and an exception from
`base.owner()` itself propagates. -/
def canDockAt (reg : Registry) (f : FactionE) (b : BaseE) : Res Bool :=
  match b.owner reg with
  | .raised => .raised
  | .ok none => .raised
  | .ok (some ow) =>
    match repSheetLookup reg f ow with
    | none => .raised
    | some v => .ok (decide (v > Faction.NODOCK_REP))

/-- C7: when the base's owner resolves and the faction's rep sheet has an
entry for it, `can_dock_at` returns exactly the comparison of that rep
value with the −0.65 no-dock threshold; when the owner is absent (`None`),
the sheet lookup fails and the failure propagates. -/
theorem c7_can_dock_at_threshold (reg : Registry) (f : FactionE) (b : BaseE) :
    (∀ (ow : FactionE) (v : Rat),
      b.owner reg = .ok (some ow) → repSheetLookup reg f ow = some v →
      canDockAt reg f b = .ok (decide (v > Faction.NODOCK_REP))) ∧
    (b.owner reg = .ok none → canDockAt reg f b = .raised) := by
  constructor
  · intro ow v how hv
    simp [canDockAt, how, hv]
  · intro how
    simp [canDockAt, how]

/-- The rational 1/2, in reduced form. -/
def oneHalf : Rat := ⟨1, 2, by decide, by decide⟩

def facNavy : FactionE := ⟨"navy", [(oneHalf, "navy")]⟩

def solWestPoint : BaseSolarE := ⟨"bs_west_point", "navy", "base_west_point"⟩

def sysNewYork : SystemE := ⟨"li01", [], [], [solWestPoint]⟩

def baseWestPoint : BaseE := ⟨"base_west_point", "li01", none⟩

def baseVirtual : BaseE := ⟨"base_virtual", "li01", none⟩

def regNavy : Registry := ⟨[sysNewYork], [facNavy], [baseWestPoint, baseVirtual]⟩

/-- Witness for C7: the navy (rep 1/2 toward itself) can dock at its own
base, and docking at a base with an absent owner raises. -/
theorem c7_can_dock_at_threshold_witness :
    canDockAt regNavy facNavy baseWestPoint = .ok true ∧
    canDockAt regNavy facNavy baseVirtual = .raised :=
  ⟨(c7_can_dock_at_threshold regNavy facNavy baseWestPoint).1 facNavy oneHalf rfl rfl,
   (c7_can_dock_at_threshold regNavy facNavy baseVirtual).2 rfl⟩

/-- C9: a Base whose system resolves but has no matching BaseSolar and no
mission-base entry gets `owner() = None`, with no exception: the faction
lookup is never attempted. -/
theorem c9_owner_none_for_solarless_base (reg : Registry) (b : BaseE)
    (hs : b.solar reg = some none) (hm : b.mbaseLocalFaction = none) :
    b.owner reg = .ok none := by
  simp [BaseE.owner, hs, hm]

/-- Witness for C9 at the concrete virtual base. -/
theorem c9_owner_none_for_solarless_base_witness :
    BaseE.owner regNavy baseVirtual = .ok none :=
  c9_owner_none_for_solarless_base regNavy baseVirtual rfl rfl

/-- Whether the generator of `Faction.bases()` keeps base `b`, given the
value `so` of `b.solar()`: the filter
`base.has_solar() and base.solar().reputation == self.nickname`. -/
def basesStep (b : BaseE) (so : Option BaseSolarE) (fnick : String)
    (rest : List BaseE) : List BaseE :=
  match so with
  | some sol => if sol.reputation = fnick then b :: rest else rest
  | none => rest

/-- The generator of `Faction.bases()` evaluated left to right; a raise
from `has_solar()`/`solar()` aborts the whole query (`none`). -/
def basesAux (reg : Registry) (fnick : String) : List BaseE → Option (List BaseE)
  | [] => some []
  | b :: bs =>
    match b.solar reg with
    | none => none
    | some so => (basesAux reg fnick bs).map (basesStep b so fnick)

/-- Query `Faction.bases()`: all Bases whose solar exists and whose solar's
`reputation` equals this faction's nickname. -/
def FactionE.bases (reg : Registry) (f : FactionE) : Option (List BaseE) :=
  basesAux reg f.nickname reg.bases

theorem basesAux_mem (reg : Registry) (fnick : String) :
    ∀ (bs : List BaseE) (l : List BaseE), basesAux reg fnick bs = some l →
      ∀ b ∈ l, ∃ sol, b.solar reg = some (some sol) ∧ sol.reputation = fnick
  | [], l, h => by
    simp only [basesAux, Option.some_inj] at h
    subst h
    simp
  | b0 :: bs, l, h => by
    simp only [basesAux] at h
    match hs : b0.solar reg with
    | none => rw [hs] at h; exact absurd h (by simp)
    | some so =>
      rw [hs] at h
      obtain ⟨rest, hrest, rfl⟩ := Option.map_eq_some'.mp h
      have ih := basesAux_mem reg fnick bs rest hrest
      intro b hb
      match so with
      | some sol =>
        by_cases hrep : sol.reputation = fnick
        · simp only [basesStep, if_pos hrep] at hb
          rcases List.mem_cons.mp hb with rfl | hb
          · exact ⟨sol, hs, hrep⟩
          · exact ih b hb
        · simp only [basesStep, if_neg hrep] at hb
          exact ih b hb
      | none => exact ih b (by simpa [basesStep] using hb)

/-- C10: every Base returned by `Faction.bases()` has a physical solar
whose `reputation` field is the faction's nickname; a virtual base (one
whose solar is absent) is never a member, regardless of mission data. -/
theorem c10_faction_bases_all_owned_solars (reg : Registry) (f : FactionE)
    (l : List BaseE) (h : f.bases reg = some l) :
    (∀ b ∈ l, ∃ sol, b.solar reg = some (some sol) ∧ sol.reputation = f.nickname) ∧
    (∀ b : BaseE, b.solar reg = some none → b ∉ l) := by
  have hmem := basesAux_mem reg f.nickname reg.bases l h
  refine ⟨hmem, fun b hb hin => ?_⟩
  obtain ⟨sol, hsol, _⟩ := hmem b hin
  rw [hb] at hsol
  exact absurd (Option.some_inj.mp hsol) (by simp)

/-- Witness for C10: in the navy registry, `bases()` returns exactly the
base with the navy-owned solar, and the virtual base is not a member. -/
theorem c10_faction_bases_all_owned_solars_witness :
    (∀ b ∈ [baseWestPoint], ∃ sol, BaseE.solar regNavy b = some (some sol) ∧
      sol.reputation = facNavy.nickname) ∧
    baseVirtual ∉ [baseWestPoint] :=
  ⟨(c10_faction_bases_all_owned_solars regNavy facNavy [baseWestPoint] rfl).1,
   (c10_faction_bases_all_owned_solars regNavy facNavy [baseWestPoint] rfl).2
     baseVirtual rfl⟩

end Flint
